import Mathlib

/-
Verification of the SciCover summary pipeline.

This file is a shallow embedding, in Lean 4, of the parts of the SciCover
repository (scripts/) that the specification's claims are about:

  * scripts/utils/helpers.py   — generate_article_id
  * scripts/ai/fulltext.py     — fetch_fulltext, the per-provider fetchers,
                                 _truncate and MAX_FULLTEXT_CHARS
  * scripts/scraper/base.py    — BaseScraper._fetch (retrying HTTP GET)
  * scripts/scraper/science_scraper.py — ScienceScraper._extract_cover_image
  * scripts/ai/summarizer.py   — the signature of BilingualSummarizer.summarize
  * scripts/pipeline/runner.py — PipelineRunner.run / _process_journal /
                                 _write_json and the manifest rebuild steps
  * scripts/main.py            — the exit-code policy of main()

Network I/O, HTML parsing and the language model are external effects; they
are modelled as environments that supply each effect's result (the value a
given HTTP GET returns, the text a given CSS selector extracts, and so on),
while the control flow around those effects is transcribed directly from the
Python source.  Python machine strings are modelled as Lean `String`
(Python `len` counts code points, as does `String.length`).
-/

namespace SciCover

/-! ## scripts/utils/helpers.py -/

/-- Characters kept by the slug regex `[^a-z0-9]+` of `generate_article_id`
(everything else is replaced by a hyphen).  The journal name has already been
lower-cased when this runs. -/
def isSlugKeep (c : Char) : Bool :=
  decide (('a' ≤ c ∧ c ≤ 'z') ∨ ('0' ≤ c ∧ c ≤ '9'))

/-- Collapse consecutive hyphens to a single hyphen.  Together with mapping
every non-kept character to a hyphen this implements the regex substitution
`re.sub(r"[^a-z0-9]+", "-", journal.lower())`: each maximal run of non-kept
characters becomes one hyphen. -/
def squeezeHyphens : List Char → List Char
  | [] => []
  | [c] => [c]
  | a :: b :: rest =>
    if a = '-' ∧ b = '-' then squeezeHyphens (b :: rest)
    else a :: squeezeHyphens (b :: rest)

/-- Python `str.strip("-")`: drop leading and trailing hyphens. -/
def stripHyphens (l : List Char) : List Char :=
  ((l.dropWhile (fun c => c = '-')).reverse.dropWhile (fun c => c = '-')).reverse

/-- scripts/utils/helpers.py `generate_article_id(journal, date)`:
`<journal_slug>-<date>` where the slug is the lower-cased journal name with
runs of non-`[a-z0-9]` characters replaced by single hyphens and then
stripped of leading/trailing hyphens, and the date keeps only `[0-9-]`
characters.  (`Char.toLower` lower-cases ASCII letters; the six journal
names of this repository are ASCII.) -/
def generate_article_id (journal date : String) : String :=
  let lowered := journal.data.map Char.toLower
  let slug := stripHyphens
    (squeezeHyphens (lowered.map (fun c => if isSlugKeep c then c else '-')))
  let safe_date := date.data.filter (fun c => c.isDigit ∨ c = '-')
  String.mk (slug ++ '-' :: safe_date)

/-! ## Python string helpers shared by several modules -/

/-- Whitespace characters stripped by Python `str.strip()` / `str.rstrip()`
with no argument (the ASCII members; the pipeline's strings are produced by
its own scrapers and prompts, which stay in this range). -/
def isPySpace (c : Char) : Bool :=
  c = ' ' ∨ c = '\t' ∨ c = '\n' ∨ c = '\r' ∨ c = '\x0b' ∨ c = '\x0c'

/-- Python `str.rstrip()`. -/
def pyRstrip (s : String) : String :=
  String.mk (s.data.reverse.dropWhile isPySpace).reverse

/-- Python `str.strip()`. -/
def pyStrip (s : String) : String :=
  String.mk ((s.data.dropWhile isPySpace).reverse.dropWhile isPySpace).reverse

/-- Python slicing `text[:n]`. -/
def strTake (s : String) (n : Nat) : String :=
  String.mk (s.data.take n)

/-! ## scripts/ai/fulltext.py — truncation -/

/-- scripts/ai/fulltext.py `MAX_FULLTEXT_CHARS`. -/
def MAX_FULLTEXT_CHARS : Nat := 60000

/-- Helper for `pyRfindNlNl`: scan left to right remembering the index of the
last position where two consecutive newline characters start. -/
def rfind2Aux : List Char → Nat → Option Nat → Option Nat
  | a :: b :: rest, i, best =>
    rfind2Aux (b :: rest) (i + 1) (if a = '\n' ∧ b = '\n' then some i else best)
  | _, _, best => best

/-- Python `s.rfind("\n\n")`: index of the last occurrence of a blank-line
paragraph boundary, or `-1` when there is none. -/
def pyRfindNlNl (s : String) : Int :=
  match rfind2Aux s.data 0 none with
  | some i => (i : Int)
  | none => -1

/-- scripts/ai/fulltext.py `_truncate(text)`:

    if len(text) <= MAX_FULLTEXT_CHARS: return text
    cut = text[:MAX_FULLTEXT_CHARS].rfind("\n\n")
    if cut > MAX_FULLTEXT_CHARS * 0.8: return text[:cut].rstrip()
    return text[:MAX_FULLTEXT_CHARS].rstrip()

`MAX_FULLTEXT_CHARS * 0.8` evaluates to exactly `48000.0` in IEEE-754 double
arithmetic (the rounding error of `0.8` times `60000` is below half an ulp at
`48000`), so for the integer `cut` the comparison `cut > 48000.0` is exactly
`48000 < cut`, which is how it is embedded here. -/
def _truncate (text : String) : String :=
  if text.length ≤ MAX_FULLTEXT_CHARS then text
  else if (48000 : Int) < pyRfindNlNl (strTake text MAX_FULLTEXT_CHARS) then
    pyRstrip (strTake text (pyRfindNlNl (strTake text MAX_FULLTEXT_CHARS)).toNat)
  else pyRstrip (strTake text MAX_FULLTEXT_CHARS)

/-! ## scripts/ai/fulltext.py — per-provider fetchers

Each fetcher performs an HTTP GET (`_http_get`) and then extracts text from
a CSS-selected container (`_extract_text`).  Both effects are supplied by an
environment: `page` is what `_http_get` returned for the fetched URL
(`none` models the exhausted-retries failure), and `extracted` is the
`_extract_text` output of the matched container (`none` models the selector
matching nothing).  The control flow around them is transcribed from the
source. -/

structure PageEnv where
  page : Option String
  extracted : Option String
deriving DecidableEq

/-- scripts/ai/fulltext.py `_fetch_sciencedirect(url)`: requires the
extracted body text to satisfy `len(text) > 500` before it counts as a
full-text hit. -/
def _fetch_sciencedirect (env : PageEnv) : Option String :=
  match env.page with
  | none => none
  | some _ =>
    match env.extracted with
    | none => none
    | some text => if 500 < text.length then some text else none

/-- scripts/ai/fulltext.py `_fetch_cambridge(url)`: same
`len(text) > 500` guard as `_fetch_sciencedirect`. -/
def _fetch_cambridge (env : PageEnv) : Option String :=
  match env.page with
  | none => none
  | some _ =>
    match env.extracted with
    | none => none
    | some text => if 500 < text.length then some text else none

/-- scripts/ai/fulltext.py `_fetch_biorxiv(url)`: fetches the `.full` view
and applies the `len(text) > 500` guard.  (The `.full`-suffix URL
normalisation does not affect which branch is taken and is absorbed into
the environment's `page`.) -/
def _fetch_biorxiv (env : PageEnv) : Option String :=
  match env.page with
  | none => none
  | some _ =>
    match env.extracted with
    | none => none
    | some text => if 500 < text.length then some text else none

/-- scripts/ai/fulltext.py `_fetch_ssrn(url)`: returns the extracted
abstract text under the bare truthiness test `if text:` — there is NO
minimum-length threshold in this fetcher. -/
def _fetch_ssrn (env : PageEnv) : Option String :=
  match env.page with
  | none => none
  | some _ =>
    match env.extracted with
    | none => none
    | some text => if text ≠ "" then some text else none

/-- Environment for `_fetch_arxiv`: the two pages it may fetch and the text
extracted from each page's matched container.  `hasId` is whether the arXiv
ID regex matched the URL. -/
structure ArxivEnv where
  hasId : Bool
  htmlPage : Option String
  htmlMain : Option String
  absPage : Option String
  absBlock : Option String
deriving DecidableEq

/-- The abstract-page fallback inside `_fetch_arxiv`: returns the extracted
`.abstract` text under the bare truthiness test `if text:` — no
minimum-length threshold. -/
def _fetch_arxiv_absStage (env : ArxivEnv) : Option String :=
  match env.absPage with
  | none => none
  | some _ =>
    match env.absBlock with
    | none => none
    | some text => if text ≠ "" then some text else none

/-- scripts/ai/fulltext.py `_fetch_arxiv(url)`: try the HTML rendering
first (with the `len(text) > 500` guard), then fall back to the abstract
page (no guard). -/
def _fetch_arxiv (env : ArxivEnv) : Option String :=
  if env.hasId = false then none
  else
    match env.htmlPage with
    | none => _fetch_arxiv_absStage env
    | some _ =>
      match env.htmlMain with
      | none => _fetch_arxiv_absStage env
      | some text =>
        if 500 < text.length then some text else _fetch_arxiv_absStage env

/-! ## scripts/ai/fulltext.py — fetch_fulltext dispatch -/

/-- Environment for `fetch_fulltext`: what `_try_preprint(preprint_url)` and
`_try_open_access(article_url)` would each return if consulted.  `none`
models the Python `None`; an empty string is also falsy under the source's
`if text:` test. -/
structure FtEnv where
  tryPreprintResult : Option String
  tryOpenAccessResult : Option String
deriving DecidableEq

/-- Python truthiness of an `Optional[str]`. -/
def optTruthy : Option String → Bool
  | none => false
  | some s => s ≠ ""

/-- Result of `fetch_fulltext` together with which of the two strategies
were consulted (whether `_try_preprint` / `_try_open_access` was called). -/
structure FtTrace where
  result : Option String
  preprintConsulted : Bool
  openAccessConsulted : Bool
deriving DecidableEq

/-- Strategy 2 of `fetch_fulltext` followed by the final `return None`;
`pc` records whether strategy 1 was consulted before falling through. -/
def ftStage2 (article_url : String) (env : FtEnv) (pc : Bool) : FtTrace :=
  if article_url ≠ "" then
    match env.tryOpenAccessResult with
    | some text =>
      if text ≠ "" then ⟨some (_truncate text), pc, true⟩ else ⟨none, pc, true⟩
    | none => ⟨none, pc, true⟩
  else ⟨none, pc, false⟩

/-- scripts/ai/fulltext.py `fetch_fulltext(preprint_url, article_url, doi)`:
strategy 1 (preprint) if `preprint_url` is truthy, then strategy 2
(open access) if `article_url` is truthy, then `None`.  The `doi` parameter
appears in the source signature and is never read by the body. -/
def fetch_fulltext (preprint_url article_url doi : String) (env : FtEnv) : FtTrace :=
  if preprint_url ≠ "" then
    match env.tryPreprintResult with
    | some text =>
      if text ≠ "" then ⟨some (_truncate text), true, false⟩
      else ftStage2 article_url env true
    | none => ftStage2 article_url env true
  else ftStage2 article_url env false

/-! ## scripts/scraper/science_scraper.py — _extract_cover_image -/

/-- An `<img>` element as the cover-image cascade sees it: its `src`,
`data-src` and `alt` attributes (empty string models a missing attribute,
matching the source's `img.get(..., "")`-style defaults). -/
structure Img where
  src : String
  dataSrc : String
  alt : String
deriving DecidableEq

/-- The three ordered candidate locators of `_extract_cover_image` as the
document answers them: `select_one("img[src*='largecover']")`, then
`select_one("img[src*='cover']")`, then the wrapper-div selectors. -/
structure CoverSoup where
  selLargecover : Option Img
  selCoverSrc : Option Img
  selWrapper : Option Img
deriving DecidableEq

/-- scripts/scraper/science_scraper.py `_extract_cover_image(soup, raw)`:
the ordered selector cascade.  Returns the element that won (from which the
source then assigns `raw.cover_image_url` / `raw.cover_image_credit`,
consulting no further candidates) together with which of the three
candidate selectors were evaluated. -/
def _extract_cover_image (soup : CoverSoup) : Option Img × (Bool × Bool × Bool) :=
  match soup.selLargecover with
  | some img => (some img, (true, false, false))
  | none =>
    match soup.selCoverSrc with
    | some img => (some img, (true, true, false))
    | none =>
      match soup.selWrapper with
      | some img => (some img, (true, true, true))
      | none => (none, (true, true, true))

/-! ## scripts/scraper/base.py — BaseScraper._fetch

    for attempt in range(1, retries + 1):
        try:
            resp = self._session.get(url, timeout=30, allow_redirects=True)
            resp.raise_for_status()
            return resp.text
        except requests.RequestException as exc:
            ...
            if attempt < retries:
                time.sleep(delay * attempt)
    return None

The network is the environment: `outcome attempt` is `some text` when the
GET of that attempt succeeds with a 2xx status and body `text`, and `none`
when it raises a `requests.RequestException` (transport error, timeout, or
the non-2xx `HTTPError` raised by `raise_for_status`).  The embedding
returns the result together with the number of attempts made and the list
of sleep durations, so the retry policy itself is visible. -/

/-- The loop body of `_fetch`, structurally recursing on the number of
remaining loop iterations; `attempt` is the Python loop variable. -/
def fetchAux (outcome : Nat → Option String) (delay : ℚ) (retries : Nat) :
    Nat → Nat → Option String × Nat × List ℚ
  | 0, _ => (none, 0, [])
  | rem + 1, attempt =>
    match outcome attempt with
    | some text => (some text, 1, [])
    | none =>
      let sleeps : List ℚ := if attempt < retries then [delay * (attempt : ℚ)] else []
      let rest := fetchAux outcome delay retries rem (attempt + 1)
      (rest.1, rest.2.1 + 1, sleeps ++ rest.2.2)

/-- scripts/scraper/base.py `BaseScraper._fetch(url, retries=2, delay=3.0)`
(the call sites use the defaults, `retries = 2` and `delay = 3`). -/
def _fetch (outcome : Nat → Option String) (retries : Nat) (delay : ℚ) :
    Option String × Nat × List ℚ :=
  fetchAux outcome delay retries retries 1

/-! ## scripts/pipeline/runner.py — _write_json

    ensure_dir(path.parent)
    tmp = path.with_suffix(".tmp")
    try:
        tmp.write_text(json.dumps(data, ensure_ascii=False, indent=2) + "\n", ...)
        tmp.replace(path)
    except OSError:
        tmp.unlink(missing_ok=True)
        raise

The filesystem slice relevant to one target path: the contents (if any)
under the final name and under the temporary name. -/

structure FsState where
  final : Option String
  tmp : Option String
deriving DecidableEq

/-- Which of the two I/O operations inside the `try` block fails, supplied
by the environment. -/
inductive WriteOutcome
  | writeRaises
  | replaceRaises
  | ok
deriving DecidableEq

/-- The serialised payload `json.dumps(data, ...) + "\n"`; the JSON encoding
itself is abstracted as the already-serialised string `data`. -/
def jsonDump (data : String) : String := data ++ "\n"

/-- scripts/pipeline/runner.py `PipelineRunner._write_json(path, data)`.
Returns the filesystem state for the target path and either `ok` or the
propagated `OSError`. -/
def _write_json (data : String) (fs : FsState) (oc : WriteOutcome) :
    FsState × Except String Unit :=
  match oc with
  | .writeRaises =>
    -- `tmp.write_text` raised; whatever partial temporary file exists is
    -- removed by `tmp.unlink(missing_ok=True)` and the error propagates.
    (⟨fs.final, none⟩, .error "OSError")
  | .replaceRaises =>
    -- the temporary file was fully written, then `tmp.replace(path)`
    -- raised; the temporary file is unlinked and the error propagates.
    let fs1 : FsState := ⟨fs.final, some (jsonDump data)⟩
    (⟨fs1.final, none⟩, .error "OSError")
  | .ok =>
    -- the temporary file is written, then atomically renamed into place:
    -- the final name now holds exactly the temporary file's full contents.
    let fs1 : FsState := ⟨fs.final, some (jsonDump data)⟩
    (⟨fs1.tmp, none⟩, (Except.ok () : Except String Unit))

/-! ## scripts/ai/summarizer.py — the summarize call signature

`BilingualSummarizer.summarize` is declared as

    def summarize(self, article: CoverArticleRaw) -> Optional[Dict[str, Any]]:

while scripts/pipeline/runner.py line 240 invokes it as

    ai_output = self.summarizer.summarize(raw, fulltext=fulltext)

Python binds keyword arguments against the declared parameter names; a
keyword that names no parameter (and there is no `**kwargs`) raises
`TypeError` at call time, before the callee's body runs. -/

/-- The named parameters of `BilingualSummarizer.summarize` after `self`. -/
def summarizeParamNames : List String := ["article"]

/-- The keyword arguments the runner's call site passes. -/
def summarizeCallKeywords : List String := ["fulltext"]

/-- Whether the runner's `summarizer.summarize(raw, fulltext=fulltext)` call
raises `TypeError` under Python's argument-binding rules: true exactly when
some passed keyword names no declared parameter. -/
def summarizeCallRaisesTypeError : Bool :=
  summarizeCallKeywords.any (fun k => !(summarizeParamNames.contains k))

/-! ## scripts/pipeline/runner.py — the orchestrator -/

/-- scripts/scraper/base.py `CoverArticleRaw` (the fields the orchestrator
reads; all default to emptiness, as in the dataclass). -/
structure CoverArticleRaw where
  journal : String := ""
  volume : String := ""
  issue : String := ""
  date : String := ""
  cover_image_url : String := ""
  cover_image_credit : String := ""
  cover_description : String := ""
  article_title : String := ""
  article_authors : List String := []
  article_abstract : String := ""
  article_doi : String := ""
  article_url : String := ""
  article_pages : String := ""
  preprint_url : String := ""
deriving DecidableEq

/-- Digits of a decimal numeral to a number (the characters are known to be
digits when this is applied). -/
def digitsToNat (l : List Char) : Nat :=
  l.foldl (fun n c => 10 * n + (c.toNat - 48)) 0

/-- Length of February in year `y` (proleptic Gregorian, as Python's
`datetime` uses). -/
def daysInMonth (y m : Nat) : Nat :=
  if m = 2 then
    if (y % 4 = 0 ∧ y % 100 ≠ 0) ∨ y % 400 = 0 then 29 else 28
  else if m = 4 ∨ m = 6 ∨ m = 9 ∨ m = 11 then 30
  else 31

/-- Split a character list on a separator predicate (the groups between
separators, like Python `str.split("-")` with every group kept). -/
def splitChars (p : Char → Bool) : List Char → List (List Char)
  | [] => [[]]
  | c :: rest =>
    match splitChars p rest with
    | [] => if p c then [[], []] else [[c]]
    | g :: gs => if p c then [] :: g :: gs else (c :: g) :: gs

/-- `datetime.strptime(date, "%Y-%m-%d")` as a partial parse: three
hyphen-separated all-digit components forming a valid proleptic-Gregorian
calendar date with `1 ≤ year ≤ 9999` (datetime's MINYEAR/MAXYEAR bounds),
else the `ValueError` branch (`none`). -/
def strptimeYmd (s : String) : Option (Nat × Nat × Nat) :=
  match splitChars (fun c => c = '-') s.data with
  | [ys, ms, ds] =>
    if ys ≠ [] ∧ ys.all Char.isDigit ∧
       ms ≠ [] ∧ ms.all Char.isDigit ∧
       ds ≠ [] ∧ ds.all Char.isDigit then
      let y := digitsToNat ys
      let m := digitsToNat ms
      let d := digitsToNat ds
      if 1 ≤ y ∧ y ≤ 9999 ∧ 1 ≤ m ∧ m ≤ 12 ∧ 1 ≤ d ∧ d ≤ daysInMonth y m then
        some (y, m, d)
      else none
    else none
  | _ => none

/-- Zero-padded decimal rendering, Python `f"{n:0wd}"`. -/
def padNum (w n : Nat) : String :=
  let s := toString n
  String.mk (List.replicate (w - s.length) '0') ++ s

/-- The entry-file path chosen in `_process_journal` step 2:
`data/articles/<year>/<month>/<id>.json` when `strptime(date, "%Y-%m-%d")`
succeeds, else the flat `data/articles/<id>.json` fallback. -/
def entryPath (article_id date : String) : String :=
  match strptimeYmd date with
  | some (y, m, _) =>
    "data/articles/" ++ padNum 4 y ++ "/" ++ padNum 2 m ++ "/" ++ article_id ++ ".json"
  | none => "data/articles/" ++ article_id ++ ".json"

/-- What `scraper.scrape_current_issue()` does for one source: raise an
exception, return `None`, or return a scraped record. -/
inductive ScrapeOutcome
  | raisesExc (msg : String)
  | returnsNone
  | returns (raw : CoverArticleRaw)
deriving DecidableEq

/-- The environment for processing one source: the scraper's output and the
results of every subsequent external effect.  Scraping a record (or a
`None`) always issues at least the initial table-of-contents GET, so its
network cost is modelled as `1 + scrapeExtraCalls`. -/
structure SourceEnv where
  /-- `scraper.JOURNAL_NAME` of this source's scraper class. -/
  journal : String
  scrape : ScrapeOutcome
  /-- GET requests issued while scraping beyond the initial TOC request
  (article page, retries, ...); also the total for the `raisesExc` case. -/
  scrapeExtraCalls : Nat := 0
  /-- `datetime.now(timezone.utc).strftime("%Y-%m-%d")`, used by the
  empty-date fallback. -/
  today : String := "2025-01-01"
  /-- whether `download_image` succeeds (its failure is non-fatal). -/
  imageDownloadOk : Bool := true
  /-- environment of the `fetch_fulltext` call. -/
  ft : FtEnv := ⟨none, none⟩
  /-- GET requests issued inside `fetch_fulltext`. -/
  ftCalls : Nat := 0
  /-- network calls `summarize` would issue if its arguments bound. -/
  summarizeCalls : Nat := 0
  /-- whether `_write_json` succeeds (its failure raises `OSError`). -/
  writeOk : Bool := true
deriving DecidableEq

/-- The `{"processed": [...], "skipped": [...], "errors": [...]}` report of
`PipelineRunner.run`; errors are (journal, message) pairs. -/
structure Report where
  processed : List String
  skipped : List String
  errors : List (String × String)
deriving DecidableEq

def emptyReport : Report := ⟨[], [], []⟩

/-- The report only ever grows by appending; a single run step's
contribution composes with the rest of the run by list concatenation. -/
def Report.append (a b : Report) : Report :=
  ⟨a.processed ++ b.processed, a.skipped ++ b.skipped, a.errors ++ b.errors⟩

/-- The date actually used after the VALIDATE_DATE fallback of
`_process_journal` (`if not raw.date or not raw.date.strip():` substitutes
today's date; both disjuncts are exactly `raw.date.strip() == ""`). -/
def effectiveDate (env : SourceEnv) (raw : CoverArticleRaw) : String :=
  if pyStrip raw.date = "" then env.today else raw.date

/-- Result of `_process_journal` for one source: the persisted store after
the call, the report entries this call appended, normal return or the
exception it raised, and the number of network calls it made. -/
structure StepResult where
  store : List String
  delta : Report
  outcome : Except String Unit
  netCalls : Nat

/-- scripts/pipeline/runner.py `PipelineRunner._process_journal(scraper,
report)`, as a function of the persisted store (the set of entry-file paths
that exist) and the environment supplying each effect's result.

Transcribed step for step from the source: scrape; substitute today's date
if the scraped date is blank; compute the article id and entry path;
skip if the entry file exists; download the cover image (one GET) when a
cover URL is present, failure non-fatal; in non-dry mode call
`fetch_fulltext` (exceptions swallowed — the embedding of `fetch_fulltext`
is total) and then `summarizer.summarize(raw, fulltext=fulltext)`, which
raises `TypeError` because `summarize` declares no `fulltext` parameter;
finally `_write_json` the entry (an `OSError` propagates) and append the id
to `processed`. -/
def processJournal (dryRun : Bool) (env : SourceEnv) (store : List String) :
    StepResult :=
  match env.scrape with
  | .raisesExc msg => ⟨store, emptyReport, .error msg, env.scrapeExtraCalls⟩
  | .returnsNone =>
    ⟨store, ⟨[], [], [(env.journal, "scraper returned None")]⟩, .ok (),
      1 + env.scrapeExtraCalls⟩
  | .returns raw =>
    let scrapeCalls := 1 + env.scrapeExtraCalls
    let date := effectiveDate env raw
    let article_id := generate_article_id raw.journal date
    let entry_file := entryPath article_id date
    if entry_file ∈ store then
      ⟨store, ⟨[], [article_id], []⟩, .ok (), scrapeCalls⟩
    else
      let imageCalls := if raw.cover_image_url ≠ "" then 1 else 0
      let fulltext : Option String :=
        if dryRun then none
        else (fetch_fulltext raw.preprint_url raw.article_url raw.article_doi env.ft).result
      let ftCalls := if dryRun then 0 else env.ftCalls
      if !dryRun ∧ summarizeCallRaisesTypeError then
        -- the summarize call raises before issuing any request; caught at
        -- the run() boundary, so this source persists nothing.
        ⟨store, emptyReport,
          .error "TypeError: summarize() got an unexpected keyword argument",
          scrapeCalls + imageCalls + ftCalls⟩
      else
        let sumCalls := if dryRun then 0 else env.summarizeCalls
        let totalCalls := scrapeCalls + imageCalls + ftCalls + sumCalls
        let summary_mode := if fulltext.isSome then "full-text" else "abstract-only"
        let _ := summary_mode  -- recorded in the entry's _meta block
        if env.writeOk then
          ⟨store ++ [entry_file], ⟨[article_id], [], []⟩, .ok (), totalCalls⟩
        else
          ⟨store, emptyReport, .error "OSError", totalCalls⟩

/-- The report entries one iteration of the `run()` loop produces for one
source: whatever `_process_journal` appended, plus the single
`{"journal": ..., "error": str(exc)}` entry the `except` clause appends
when `_process_journal` raised. -/
def stepReport (dryRun : Bool) (env : SourceEnv) (store : List String) : Report :=
  let r := processJournal dryRun env store
  match r.outcome with
  | .ok _ => r.delta
  | .error msg => r.delta.append ⟨[], [], [(env.journal, msg)]⟩

/-- The `for scraper_cls in self.scrapers:` loop of `PipelineRunner.run`,
threading the persisted store and accumulating the report. -/
def runEnvs (dryRun : Bool) : List SourceEnv → List String → List String × Report
  | [], store => (store, emptyReport)
  | env :: rest, store =>
    let r := processJournal dryRun env store
    let rest2 := runEnvs dryRun rest r.store
    (rest2.1, (stepReport dryRun env store).append rest2.2)

/-- Ordered insertion for `sortPaths`. -/
def insertSorted (x : String) : List String → List String
  | [] => [x]
  | y :: ys => if x ≤ y then x :: y :: ys else y :: insertSorted x ys

/-- `sorted(...)` over path strings: the order in which `_rebuild_index`
and `_rebuild_latest` enumerate the persisted entry files. -/
def sortPaths (l : List String) : List String :=
  l.foldr insertSorted []

/-- `PipelineRunner._rebuild_index`: rebuilt from ALL persisted entry files
(the per-entry metadata comes from the files' contents, which the store
models by their paths). -/
def rebuildIndexModel (store : List String) : List String :=
  sortPaths store

/-- `PipelineRunner._rebuild_latest`: scans the persisted entry files
newest-first (`sorted(..., reverse=True)`) to find each journal's most
recent record. -/
def rebuildLatestModel (store : List String) : List String :=
  (sortPaths store).reverse

/-- The value of one `PipelineRunner.run()` call: the final persisted
store, the returned report, and the two rebuilt manifests. -/
structure RunResult where
  store : List String
  report : Report
  indexArticles : List String
  latest : List String
deriving DecidableEq

/-- scripts/pipeline/runner.py `PipelineRunner.run()`: process every
source, catching any exception one source raises, then unconditionally
rebuild `index.json` and `latest.json` from the persisted store. -/
def runPipeline (dryRun : Bool) (envs : List SourceEnv) (store0 : List String) :
    RunResult :=
  let r := runEnvs dryRun envs store0
  ⟨r.1, r.2, rebuildIndexModel r.1, rebuildLatestModel r.1⟩

/-- scripts/main.py `main()` exit code:

    if report["processed"] or report["skipped"]:
        return 0
    return 1
-/
def mainExitCode (dryRun : Bool) (envs : List SourceEnv) (store0 : List String) : Nat :=
  let report := (runPipeline dryRun envs store0).report
  if report.processed ≠ [] ∨ report.skipped ≠ [] then 0 else 1

/-! ## Claim theorems -/

/-- C10: the result of `fetch_fulltext` never depends on its `doi` argument:
two calls with equal `preprint_url` and `article_url` but any two `doi`
values are identical, and with both URLs empty the result is `None`
regardless of the supplied `doi`. -/
theorem c10_doi_independence (p a d1 d2 : String) (env : FtEnv) :
    fetch_fulltext p a d1 env = fetch_fulltext p a d2 env ∧
    ∀ d3 : String, (fetch_fulltext "" "" d3 env).result = none := by
  refine ⟨rfl, fun d3 => ?_⟩
  simp [fetch_fulltext, ftStage2]

/-- C8: `_write_json` either renames a fully written temporary file into
place (the final name then holds exactly the serialised payload) or fails:
on failure the temporary file is cleaned up, the final name keeps its prior
contents untouched, and the `OSError` propagates.  In every case the final
name holds either the old contents or the complete new payload — never a
partial write. -/
theorem c8_atomic_write (data : String) (fs : FsState) (oc : WriteOutcome) :
    ((_write_json data fs oc).2 = Except.ok () →
      (_write_json data fs oc).1 = ⟨some (jsonDump data), none⟩) ∧
    (∀ msg, (_write_json data fs oc).2 = Except.error msg →
      (_write_json data fs oc).1 = ⟨fs.final, none⟩) ∧
    (oc ≠ WriteOutcome.ok → (_write_json data fs oc).2 = Except.error "OSError") ∧
    ((_write_json data fs oc).1.final = fs.final ∨
      (_write_json data fs oc).1.final = some (jsonDump data)) := by
  cases oc <;> simp [_write_json]

/-- C8 witness: a failing write leaves the previously persisted contents
visible and removes the temporary file. -/
theorem c8_atomic_write_witness :
    (_write_json "new" ⟨some "old", some "stale"⟩ WriteOutcome.writeRaises).2 =
      Except.error "OSError" ∧
    (_write_json "new" ⟨some "old", some "stale"⟩ WriteOutcome.writeRaises).1 =
      ⟨some "old", none⟩ :=
  ⟨(c8_atomic_write "new" ⟨some "old", some "stale"⟩ WriteOutcome.writeRaises).2.2.1
      (by decide),
    (c8_atomic_write "new" ⟨some "old", some "stale"⟩ WriteOutcome.writeRaises).2.1 "OSError"
      (by rfl)⟩

/-- C7: `_fetch` at its call-site arguments (`retries = 2`, `delay = 3.0`)
returns the first successful response body or `None` — it is a total
function of the per-attempt outcomes, so no request failure escapes it —
makes at most 2 attempts, and sleeps the linearly increasing
`delay × attempt` (here `3 × 1 = 3` seconds) between the two attempts. -/
theorem c7_fetch_retry_policy (outcome : Nat → Option String) :
    (_fetch outcome 2 3).2.1 ≤ 2 ∧
    (∀ t, outcome 1 = some t → _fetch outcome 2 3 = (some t, 1, [])) ∧
    (outcome 1 = none → ∀ t, outcome 2 = some t →
      _fetch outcome 2 3 = (some t, 2, [3])) ∧
    (outcome 1 = none → outcome 2 = none → _fetch outcome 2 3 = (none, 2, [3])) := by
  cases h1 : outcome 1 with
  | some t1 =>
    refine ⟨?_, ?_, ?_, ?_⟩
    · simp [_fetch, fetchAux, h1]
    · intro t ht; cases ht; simp [_fetch, fetchAux, h1]
    · intro h; cases h
    · intro h; cases h
  | none =>
    cases h2 : outcome 2 with
    | some t2 =>
      refine ⟨?_, ?_, ?_, ?_⟩
      · simp [_fetch, fetchAux, h1, h2]
      · intro t ht; cases ht
      · intro _ t ht; cases ht; simp [_fetch, fetchAux, h1, h2]
      · intro _ h; cases h
    | none =>
      refine ⟨?_, ?_, ?_, ?_⟩
      · simp [_fetch, fetchAux, h1, h2]
      · intro t ht; cases ht
      · intro _ t ht; cases ht
      · intro _ _; simp [_fetch, fetchAux, h1, h2]

/-- C7 witness: both attempts fail, so `_fetch` makes exactly 2 attempts,
sleeps 3 seconds once, and returns the no-content signal. -/
theorem c7_fetch_retry_policy_witness :
    ((fun _ => (none : Option String)) 1 = none) ∧
    _fetch (fun _ => (none : Option String)) 2 3 = (none, 2, [3]) :=
  ⟨rfl, (c7_fetch_retry_policy (fun _ => none)).2.2.2 rfl rfl⟩

/-- When the open-access strategy is not available (empty article URL) or
yields a falsy value, the second stage of `fetch_fulltext` produces no
result. -/
lemma ftStage2_result_none (a : String) (env : FtEnv) (pc : Bool)
    (h : a = "" ∨ optTruthy env.tryOpenAccessResult = false) :
    (ftStage2 a env pc).result = none := by
  rcases h with h | h
  · simp [ftStage2, h]
  · by_cases ha : a = ""
    · simp [ftStage2, ha]
    · cases henv : env.tryOpenAccessResult with
      | none => simp [ftStage2, ha, henv]
      | some s =>
        have hs : s = "" := by simpa [optTruthy, henv] using h
        simp [ftStage2, ha, henv, hs]

/-- C5: extraction cascades evaluate their ordered candidates left to right
and short-circuit.  For `fetch_fulltext`: when the preprint strategy yields
text, the result is that (truncated) text and the open-access strategy is
never consulted; when every candidate fails, the result is `None`.  For
`ScienceScraper._extract_cover_image`: a hit on an earlier selector means
the later selectors are never evaluated, and when all three fail the field
keeps its empty default. -/
theorem c5_cascade_short_circuit (p a d : String) (env : FtEnv) (soup : CoverSoup) :
    (∀ text : String, p ≠ "" → env.tryPreprintResult = some text → text ≠ "" →
      fetch_fulltext p a d env = ⟨some (_truncate text), true, false⟩) ∧
    ((p = "" ∨ optTruthy env.tryPreprintResult = false) →
      (a = "" ∨ optTruthy env.tryOpenAccessResult = false) →
      (fetch_fulltext p a d env).result = none) ∧
    (∀ img, soup.selLargecover = some img →
      _extract_cover_image soup = (some img, (true, false, false))) ∧
    (∀ img, soup.selLargecover = none → soup.selCoverSrc = some img →
      _extract_cover_image soup = (some img, (true, true, false))) ∧
    (soup.selLargecover = none → soup.selCoverSrc = none → soup.selWrapper = none →
      _extract_cover_image soup = (none, (true, true, true))) := by
  refine ⟨?_, ?_, ?_, ?_, ?_⟩
  · intro text hp hres ht
    simp [fetch_fulltext, hp, hres, ht]
  · intro h1 h2
    rcases h1 with h1 | h1
    · simp only [fetch_fulltext, h1]
      simpa using ftStage2_result_none a env false h2
    · by_cases hp : p = ""
      · simp only [fetch_fulltext, hp]
        simpa using ftStage2_result_none a env false h2
      · cases henv : env.tryPreprintResult with
        | none =>
          simp only [fetch_fulltext, henv, hp, if_pos]
          simpa [hp] using ftStage2_result_none a env true h2
        | some s =>
          have hs : s = "" := by simpa [optTruthy, henv] using h1
          simp only [fetch_fulltext, henv, hs]
          simpa [hp] using ftStage2_result_none a env true h2
  · intro img h; simp [_extract_cover_image, h]
  · intro img h1 h2; simp [_extract_cover_image, h1, h2]
  · intro h1 h2 h3; simp [_extract_cover_image, h1, h2, h3]

/-- C5 witness: a preprint hit short-circuits the cascade at a concrete
input, and the all-fail cascade yields the empty defaults. -/
theorem c5_cascade_short_circuit_witness :
    fetch_fulltext "https://arxiv.org/abs/2601.08791" "https://www.sciencedirect.com/x" ""
        ⟨some "preprint body", some "open access body"⟩ =
      ⟨some (_truncate "preprint body"), true, false⟩ ∧
    _extract_cover_image ⟨none, none, none⟩ = (none, (true, true, true)) :=
  ⟨(c5_cascade_short_circuit "https://arxiv.org/abs/2601.08791"
      "https://www.sciencedirect.com/x" "" ⟨some "preprint body", some "open access body"⟩
      ⟨none, none, none⟩).1 "preprint body" (by decide) rfl (by decide),
   (c5_cascade_short_circuit "https://arxiv.org/abs/2601.08791"
      "https://www.sciencedirect.com/x" "" ⟨some "preprint body", some "open access body"⟩
      ⟨none, none, none⟩).2.2.2.2 rfl rfl rfl⟩

/-- C6 counterexample: the SSRN fetcher has no minimum-length threshold.
A 10-character extracted abstract is returned as a full-text hit, and
`fetch_fulltext` then reports it as the full text, contradicting the claim
that body text of fewer than 500 characters is always treated as a
non-hit. -/
theorem c6_threshold_counterexample :
    _fetch_ssrn ⟨some "<html>", some "Too short."⟩ = some "Too short." ∧
    ("Too short." : String).length < 500 ∧
    (fetch_fulltext "https://ssrn.com/abstract=5012345" "" ""
        ⟨some "Too short.", none⟩).result = some "Too short." := by
  refine ⟨rfl, by decide, ?_⟩
  have h : _truncate "Too short." = "Too short." := by
    unfold _truncate
    rw [if_pos (by decide)]
  simp [fetch_fulltext, h]

/-- C6 (amended): the 500-character minimum applies to the body-text
fetchers — ScienceDirect, Cambridge Core, bioRxiv/medRxiv, and the arXiv
HTML rendering (which falls through to its abstract stage) — where text not
exceeding 500 characters is a non-hit; but the SSRN fetcher and the arXiv
abstract fallback return any non-empty extracted text with no length
threshold. -/
theorem c6_threshold_amended :
    (∀ (env : PageEnv) (text : String), env.extracted = some text →
      text.length ≤ 500 → _fetch_sciencedirect env = none) ∧
    (∀ (env : PageEnv) (text : String), env.extracted = some text →
      text.length ≤ 500 → _fetch_cambridge env = none) ∧
    (∀ (env : PageEnv) (text : String), env.extracted = some text →
      text.length ≤ 500 → _fetch_biorxiv env = none) ∧
    (∀ (env : ArxivEnv) (text : String), env.htmlMain = some text →
      text.length ≤ 500 → _fetch_arxiv env =
        (if env.hasId = false then none else _fetch_arxiv_absStage env)) ∧
    (∀ (env : PageEnv) (page text : String), env.page = some page →
      env.extracted = some text → text ≠ "" → _fetch_ssrn env = some text) := by
  refine ⟨?_, ?_, ?_, ?_, ?_⟩
  · intro env text he hlen
    cases hp : env.page with
    | none => simp [_fetch_sciencedirect, hp]
    | some pg => simp [_fetch_sciencedirect, hp, he, Nat.not_lt.mpr hlen]
  · intro env text he hlen
    cases hp : env.page with
    | none => simp [_fetch_cambridge, hp]
    | some pg => simp [_fetch_cambridge, hp, he, Nat.not_lt.mpr hlen]
  · intro env text he hlen
    cases hp : env.page with
    | none => simp [_fetch_biorxiv, hp]
    | some pg => simp [_fetch_biorxiv, hp, he, Nat.not_lt.mpr hlen]
  · intro env text he hlen
    cases hid : env.hasId with
    | false => simp [_fetch_arxiv, hid]
    | true =>
      cases hp : env.htmlPage with
      | none => simp [_fetch_arxiv, hid, hp]
      | some pg => simp [_fetch_arxiv, hid, hp, he, Nat.not_lt.mpr hlen]
  · intro env page text hp he ht
    simp [_fetch_ssrn, hp, he, ht]

/-- C6 witness: a 501-character ScienceDirect extraction is exactly at the
threshold boundary from above of the guard `len(text) > 500` — here a
500-character text is rejected while SSRN returns a 10-character one. -/
theorem c6_threshold_amended_witness :
    (String.mk (List.replicate 500 'a')).length ≤ 500 ∧
    _fetch_sciencedirect ⟨some "<html>", some (String.mk (List.replicate 500 'a'))⟩ = none ∧
    _fetch_ssrn ⟨some "<html>", some "abstract"⟩ = some "abstract" := by
  have h1 : (String.mk (List.replicate 500 'a')).length ≤ 500 := by
    have h2 : (String.mk (List.replicate 500 'a')).length = 500 := by
      show (List.replicate 500 'a').length = 500
      exact List.length_replicate 500 'a'
    omega
  exact ⟨h1,
    (c6_threshold_amended).1 ⟨some "<html>", some (String.mk (List.replicate 500 'a'))⟩
      (String.mk (List.replicate 500 'a')) rfl h1,
    (c6_threshold_amended).2.2.2.2 ⟨some "<html>", some "abstract"⟩ "<html>" "abstract"
      rfl rfl (by decide)⟩

/-- A representative scraped record for which the pipeline reaches the
summarisation step: fresh identity, a preprint link, no cover image URL. -/
def freshScienceRaw : CoverArticleRaw :=
  { journal := "Science", date := "2025-06-20",
    article_title := "A cover story",
    preprint_url := "https://arxiv.org/abs/2601.08791" }

/-- The environment of a non-dry run over that record against an empty
persisted store: the scrape succeeds and the write would succeed. -/
def freshScienceEnv : SourceEnv :=
  { journal := "Science", scrape := ScrapeOutcome.returns freshScienceRaw }

/-- C1: the claim is what the runner's own dead code intends —
`_build_entry` is reached with `ai_output = None` and the entry is written
with empty summary fields — but the call `summarizer.summarize(raw,
fulltext=fulltext)` names a keyword (`fulltext`) that
`BilingualSummarizer.summarize(self, article)` does not declare, so every
non-dry run that reaches the summarisation step raises `TypeError` at the
call itself: nothing is persisted for the source, its report contribution
is empty, and the exception escapes `_process_journal` (to be recorded as a
source-level error, not as a processed source).  The same environment in
dry-run mode shows the record would otherwise persist. -/
theorem c1_summarization_failure_drops_record :
    summarizeCallRaisesTypeError = true ∧
    (processJournal false freshScienceEnv []).outcome =
      Except.error "TypeError: summarize() got an unexpected keyword argument" ∧
    (processJournal false freshScienceEnv []).store = [] ∧
    (processJournal false freshScienceEnv []).delta = emptyReport ∧
    (processJournal true freshScienceEnv []).delta.processed = ["science-2025-06-20"] ∧
    (processJournal true freshScienceEnv []).store =
      ["data/articles/2025/06/science-2025-06-20.json"] := by
  refine ⟨rfl, rfl, rfl, rfl, rfl, by decide⟩

/-! ## Lemmas about the truncation search -/

/-- A paragraph boundary (`"\n\n"`) starts at position `i` of `l`. -/
def pairAt (l : List Char) (i : Nat) : Prop :=
  l.get? i = some '\n' ∧ l.get? (i + 1) = some '\n'

/-- The accumulator of `rfind2Aux` is only ever replaced by a position at or
after the current scan index. -/
lemma rfind2Aux_acc : ∀ (l : List Char) (k : Nat) (acc : Option Nat),
    rfind2Aux l k acc = acc ∨ ∃ m, rfind2Aux l k acc = some m ∧ k ≤ m := by
  intro l
  induction l with
  | nil => intro k acc; left; rfl
  | cons a l ih =>
    intro k acc
    cases l with
    | nil => left; rfl
    | cons b rest =>
      have hstep : rfind2Aux (a :: b :: rest) k acc =
          rfind2Aux (b :: rest) (k + 1) (if a = '\n' ∧ b = '\n' then some k else acc) := rfl
      rcases ih (k + 1) (if a = '\n' ∧ b = '\n' then some k else acc) with h | ⟨m, hm, hkm⟩
      · rw [hstep, h]
        by_cases hab : a = '\n' ∧ b = '\n'
        · rw [if_pos hab]; exact Or.inr ⟨k, rfl, le_refl k⟩
        · rw [if_neg hab]; exact Or.inl rfl
      · rw [hstep]
        exact Or.inr ⟨m, hm, by omega⟩

/-- Every paragraph boundary forces `rfind2Aux` to answer with a position
at least as large: the scan remembers the LAST boundary. -/
lemma rfind2Aux_ge_pairs : ∀ (l : List Char) (k : Nat) (acc : Option Nat) (j : Nat),
    pairAt l j → ∃ m, rfind2Aux l k acc = some m ∧ k + j ≤ m := by
  intro l
  induction l with
  | nil =>
    intro k acc j hj
    rcases hj with ⟨h1, _⟩
    simp [List.get?] at h1
  | cons a l ih =>
    intro k acc j hj
    cases l with
    | nil =>
      rcases hj with ⟨_, h2⟩
      have : ([a] : List Char).length ≤ j + 1 := by simp
      rw [List.get?_eq_none.mpr this] at h2
      cases h2
    | cons b rest =>
      have hstep : rfind2Aux (a :: b :: rest) k acc =
          rfind2Aux (b :: rest) (k + 1) (if a = '\n' ∧ b = '\n' then some k else acc) := rfl
      cases j with
      | zero =>
        rcases hj with ⟨h1, h2⟩
        have ha : a = '\n' := by simpa using h1
        have hb : b = '\n' := by simpa using h2
        have hacc : (if a = '\n' ∧ b = '\n' then some k else acc) = some k :=
          if_pos ⟨ha, hb⟩
        rw [hstep, hacc]
        rcases rfind2Aux_acc (b :: rest) (k + 1) (some k) with h | ⟨m, hm, hkm⟩
        · exact ⟨k, h, by omega⟩
        · exact ⟨m, hm, by omega⟩
      | succ j =>
        have hj' : pairAt (b :: rest) j := by
          rcases hj with ⟨h1, h2⟩
          exact ⟨by simpa using h1, by simpa using h2⟩
        obtain ⟨m, hm, hkm⟩ := ih (k + 1) (if a = '\n' ∧ b = '\n' then some k else acc) j hj'
        rw [hstep]
        exact ⟨m, hm, by omega⟩

/-- Any position `rfind2Aux` answers with, beyond the accumulator it was
given, is a genuine paragraph boundary. -/
lemma rfind2Aux_sound : ∀ (l : List Char) (k : Nat) (acc : Option Nat) (m : Nat),
    rfind2Aux l k acc = some m → acc = some m ∨ ∃ j, pairAt l j ∧ m = k + j := by
  intro l
  induction l with
  | nil => intro k acc m h; exact Or.inl h
  | cons a l ih =>
    intro k acc m h
    cases l with
    | nil => exact Or.inl h
    | cons b rest =>
      have hstep : rfind2Aux (a :: b :: rest) k acc =
          rfind2Aux (b :: rest) (k + 1) (if a = '\n' ∧ b = '\n' then some k else acc) := rfl
      rw [hstep] at h
      rcases ih (k + 1) (if a = '\n' ∧ b = '\n' then some k else acc) m h with h' | ⟨j, hj, hm⟩
      · by_cases hab : a = '\n' ∧ b = '\n'
        · rw [if_pos hab] at h'
          have hk : k = m := by injection h'
          refine Or.inr ⟨0, ⟨?_, ?_⟩, by omega⟩
          · simpa using hab.1
          · simpa using hab.2
        · rw [if_neg hab] at h'
          exact Or.inl h'
      · refine Or.inr ⟨j + 1, ⟨?_, ?_⟩, by omega⟩
        · simpa using hj.1
        · simpa using hj.2

/-- `dropWhile` only removes elements. -/
lemma dropWhile_length_le (p : Char → Bool) :
    ∀ l : List Char, (l.dropWhile p).length ≤ l.length := by
  intro l
  induction l with
  | nil => simp
  | cons a l ih =>
    by_cases h : p a
    · rw [List.dropWhile_cons_of_pos h]
      exact le_trans ih (by simp)
    · rw [List.dropWhile_cons_of_neg h]

/-- `pyRstrip` only removes characters. -/
lemma pyRstrip_length_le (s : String) : (pyRstrip s).length ≤ s.length := by
  show ((s.data.reverse.dropWhile isPySpace).reverse).length ≤ s.data.length
  rw [List.length_reverse]
  calc (s.data.reverse.dropWhile isPySpace).length
      ≤ s.data.reverse.length := dropWhile_length_le isPySpace s.data.reverse
    _ = s.data.length := List.length_reverse s.data

/-- `strTake` takes at most `n` characters. -/
lemma strTake_length_le (s : String) (n : Nat) : (strTake s n).length ≤ n := by
  show (s.data.take n).length ≤ n
  exact List.length_take_le n s.data

/-- A paragraph boundary found by `pyRfindNlNl` inside the first
`MAX_FULLTEXT_CHARS` characters sits strictly below the budget. -/
lemma pairAt_lt_length {l : List Char} {i : Nat} (h : pairAt l i) : i + 1 < l.length := by
  rcases h with ⟨_, h2⟩
  by_contra hge
  rw [List.get?_eq_none.mpr (by omega)] at h2
  cases h2

/-- C4: `_truncate` always returns at most `MAX_FULLTEXT_CHARS` characters,
and on over-budget input it cuts at the LAST paragraph boundary of the
budget window whenever that boundary lies in the last 20% of the budget
(strictly beyond index 48000 = 80% of 60000, the exact float comparison of
the source), and otherwise cuts at the hard limit; in both cases trailing
whitespace of the kept prefix is stripped, as the source's `.rstrip()`
does. -/
theorem c4_truncate_policy (t : String) :
    (_truncate t).length ≤ MAX_FULLTEXT_CHARS ∧
    (MAX_FULLTEXT_CHARS < t.length →
      (∃ i : Nat, pairAt (strTake t MAX_FULLTEXT_CHARS).data i ∧
          (∀ j, pairAt (strTake t MAX_FULLTEXT_CHARS).data j → j ≤ i) ∧
          ((48000 < i ∧ _truncate t = pyRstrip (strTake t i)) ∨
            (i ≤ 48000 ∧ _truncate t = pyRstrip (strTake t MAX_FULLTEXT_CHARS)))) ∨
        ((∀ j, ¬ pairAt (strTake t MAX_FULLTEXT_CHARS).data j) ∧
          _truncate t = pyRstrip (strTake t MAX_FULLTEXT_CHARS))) := by
  by_cases ht : t.length ≤ MAX_FULLTEXT_CHARS
  · constructor
    · unfold _truncate
      rw [if_pos ht]
      exact ht
    · intro h; omega
  · have hru : ∀ n, (pyRstrip (strTake t n)).length ≤ n := fun n =>
      le_trans (pyRstrip_length_le (strTake t n)) (strTake_length_le t n)
    cases haux : rfind2Aux (strTake t MAX_FULLTEXT_CHARS).data 0 none with
    | none =>
      have hfind : pyRfindNlNl (strTake t MAX_FULLTEXT_CHARS) = -1 := by
        unfold pyRfindNlNl
        rw [haux]
      have heq : _truncate t = pyRstrip (strTake t MAX_FULLTEXT_CHARS) := by
        unfold _truncate
        rw [if_neg ht, hfind, if_neg (by omega)]
      have hnone : ∀ j, ¬ pairAt (strTake t MAX_FULLTEXT_CHARS).data j := by
        intro j hj
        obtain ⟨m, hm, _⟩ :=
          rfind2Aux_ge_pairs (strTake t MAX_FULLTEXT_CHARS).data 0 none j hj
        rw [haux] at hm
        cases hm
      exact ⟨heq ▸ hru MAX_FULLTEXT_CHARS, fun _ => Or.inr ⟨hnone, heq⟩⟩
    | some m =>
      have hfind : pyRfindNlNl (strTake t MAX_FULLTEXT_CHARS) = (m : Int) := by
        unfold pyRfindNlNl
        rw [haux]
      have hpair : pairAt (strTake t MAX_FULLTEXT_CHARS).data m := by
        rcases rfind2Aux_sound (strTake t MAX_FULLTEXT_CHARS).data 0 none m haux with
          h' | ⟨j, hj, hm⟩
        · cases h'
        · have : m = j := by omega
          exact this ▸ hj
      have hlast : ∀ j, pairAt (strTake t MAX_FULLTEXT_CHARS).data j → j ≤ m := by
        intro j hj
        obtain ⟨m', hm', hge⟩ :=
          rfind2Aux_ge_pairs (strTake t MAX_FULLTEXT_CHARS).data 0 none j hj
        rw [haux] at hm'
        injection hm' with hmm
        omega
      have hmlt : m + 1 < MAX_FULLTEXT_CHARS := by
        have h1 := pairAt_lt_length hpair
        have h2 : (strTake t MAX_FULLTEXT_CHARS).data.length ≤ MAX_FULLTEXT_CHARS := by
          show (t.data.take MAX_FULLTEXT_CHARS).length ≤ MAX_FULLTEXT_CHARS
          exact List.length_take_le MAX_FULLTEXT_CHARS t.data
        omega
      by_cases hcut : 48000 < m
      · have heq : _truncate t = pyRstrip (strTake t m) := by
          unfold _truncate
          rw [if_neg ht, hfind, if_pos (by exact_mod_cast hcut)]
          norm_num
        refine ⟨?_, fun _ => Or.inl ⟨m, hpair, hlast, Or.inl ⟨hcut, heq⟩⟩⟩
        rw [heq]
        exact le_trans (hru m) (by omega)
      · have heq : _truncate t = pyRstrip (strTake t MAX_FULLTEXT_CHARS) := by
          unfold _truncate
          rw [if_neg ht, hfind, if_neg (by exact_mod_cast hcut)]
        exact ⟨heq ▸ hru MAX_FULLTEXT_CHARS,
          fun _ => Or.inl ⟨m, hpair, hlast, Or.inr ⟨by omega, heq⟩⟩⟩

/-- A 60001-character text, one character over the budget. -/
def overBudgetText : String := String.mk (List.replicate 60001 'a')

/-- C4 witness: an over-budget input satisfies the truncation policy. -/
theorem c4_truncate_policy_witness :
    MAX_FULLTEXT_CHARS < overBudgetText.length ∧
    ((∃ i : Nat, pairAt (strTake overBudgetText MAX_FULLTEXT_CHARS).data i ∧
        (∀ j, pairAt (strTake overBudgetText MAX_FULLTEXT_CHARS).data j → j ≤ i) ∧
        ((48000 < i ∧ _truncate overBudgetText = pyRstrip (strTake overBudgetText i)) ∨
          (i ≤ 48000 ∧
            _truncate overBudgetText =
              pyRstrip (strTake overBudgetText MAX_FULLTEXT_CHARS)))) ∨
      ((∀ j, ¬ pairAt (strTake overBudgetText MAX_FULLTEXT_CHARS).data j) ∧
        _truncate overBudgetText =
          pyRstrip (strTake overBudgetText MAX_FULLTEXT_CHARS))) := by
  have h : MAX_FULLTEXT_CHARS < overBudgetText.length := by
    have h2 : overBudgetText.length = 60001 := by
      show (List.replicate 60001 'a').length = 60001
      exact List.length_replicate 60001 'a'
    rw [h2, MAX_FULLTEXT_CHARS]
    omega
  exact ⟨h, (c4_truncate_policy overBudgetText).2 h⟩

/-! ## Lemmas about the orchestrator loop -/

lemma Report.empty_append (r : Report) : emptyReport.append r = r := by
  cases r
  simp [Report.append, emptyReport]

lemma Report.append_assoc (a b c : Report) :
    (a.append b).append c = a.append (b.append c) := by
  cases a; cases b; cases c
  simp [Report.append]

/-- A `_process_journal` call that raises leaves the persisted store
untouched and has appended nothing to the report: every raising path
(the scraper's own exception, the summarize `TypeError`, the `_write_json`
`OSError`) exits before any append or write. -/
lemma processJournal_error_inert (d : Bool) (e : SourceEnv) (st : List String)
    (msg : String) (h : (processJournal d e st).outcome = Except.error msg) :
    (processJournal d e st).store = st ∧ (processJournal d e st).delta = emptyReport := by
  cases hs : e.scrape with
  | raisesExc m => simp [processJournal, hs]
  | returnsNone => simp [processJournal, hs] at h
  | returns raw =>
    have hty : summarizeCallRaisesTypeError = true := rfl
    by_cases hdup : entryPath (generate_article_id raw.journal (effectiveDate e raw))
        (effectiveDate e raw) ∈ st
    · simp [processJournal, hs, hdup] at h
    · cases d with
      | false => simp [processJournal, hs, hdup, hty]
      | true =>
        by_cases hw : e.writeOk = true
        · simp [processJournal, hs, hdup, hty, hw] at h
        · simp [processJournal, hs, hdup, hty, hw]

/-- Splitting the `run()` loop: processing `xs ++ ys` is processing `xs`,
then processing `ys` from the store `xs` left behind, with the report
contributions concatenated. -/
lemma runEnvs_append (d : Bool) : ∀ (xs ys : List SourceEnv) (store : List String),
    runEnvs d (xs ++ ys) store =
      ((runEnvs d ys (runEnvs d xs store).1).1,
        (runEnvs d xs store).2.append (runEnvs d ys (runEnvs d xs store).1).2) := by
  intro xs
  induction xs with
  | nil =>
    intro ys store
    simp [runEnvs, Report.empty_append]
  | cons e xs ih =>
    intro ys store
    simp only [List.cons_append, runEnvs, List.append_eq]
    rw [ih ys (processJournal d e store).store, Report.append_assoc]

/-- C2: if processing one source raises an unhandled exception, the run
appends exactly one error entry for it — named by its journal — to the
report, the remaining sources are processed exactly as they would be with
the failing source absent (same persisted store, same report
contributions), and the run still completes and rebuilds the catalogue
index and the most-recent-per-source lookup from the final store. -/
theorem c2_fault_isolation (d : Bool) (pre post : List SourceEnv) (s : SourceEnv)
    (store0 : List String) (msg : String)
    (h : (processJournal d s (runEnvs d pre store0).1).outcome = Except.error msg) :
    runPipeline d (pre ++ s :: post) store0 =
      ⟨(runEnvs d post (runEnvs d pre store0).1).1,
        (runEnvs d pre store0).2.append
          (Report.append ⟨[], [], [(s.journal, msg)]⟩
            (runEnvs d post (runEnvs d pre store0).1).2),
        rebuildIndexModel (runEnvs d post (runEnvs d pre store0).1).1,
        rebuildLatestModel (runEnvs d post (runEnvs d pre store0).1).1⟩ ∧
    runPipeline d (pre ++ post) store0 =
      ⟨(runEnvs d post (runEnvs d pre store0).1).1,
        (runEnvs d pre store0).2.append (runEnvs d post (runEnvs d pre store0).1).2,
        rebuildIndexModel (runEnvs d post (runEnvs d pre store0).1).1,
        rebuildLatestModel (runEnvs d post (runEnvs d pre store0).1).1⟩ := by
  obtain ⟨hstore, hdelta⟩ := processJournal_error_inert d s (runEnvs d pre store0).1 msg h
  have hstep : stepReport d s (runEnvs d pre store0).1 = ⟨[], [], [(s.journal, msg)]⟩ := by
    simp only [stepReport, h, hdelta]
    simp [Report.empty_append]
  constructor
  · unfold runPipeline
    rw [runEnvs_append d pre (s :: post) store0]
    simp only [runEnvs]
    rw [hstore, hstep]
  · unfold runPipeline
    rw [runEnvs_append d pre post store0]

/-- A source whose scraper raises, for the C2 witness. -/
def raisingEnv : SourceEnv :=
  { journal := "Nature", scrape := ScrapeOutcome.raisesExc "boom" }

/-- C2 witness: a run over exactly one raising source completes with one
error entry named by its journal and rebuilds both (empty) manifests. -/
theorem c2_fault_isolation_witness :
    (processJournal false raisingEnv ([] : List String)).outcome =
      Except.error "boom" ∧
    runPipeline false [raisingEnv] [] = ⟨[], ⟨[], [], [("Nature", "boom")]⟩, [], []⟩ :=
  ⟨rfl,
    ((c2_fault_isolation false [] [] raisingEnv [] "boom" rfl).1).trans (by decide)⟩

/-- C3 (amended): a source whose (source, date) identity is already
persisted is reported under "skipped", nothing is written or overwritten
(the store is unchanged), and no network calls are made beyond those of the
scrape itself — but the scrape that determined the identity necessarily
made at least one network call (the table-of-contents GET), so the total
for the source is `1 + scrapeExtraCalls`, not zero. -/
theorem c3_dedup_skip_amended (d : Bool) (env : SourceEnv) (store : List String)
    (raw : CoverArticleRaw) (hs : env.scrape = ScrapeOutcome.returns raw)
    (hdup : entryPath (generate_article_id raw.journal (effectiveDate env raw))
      (effectiveDate env raw) ∈ store) :
    (processJournal d env store).store = store ∧
    (processJournal d env store).delta =
      ⟨[], [generate_article_id raw.journal (effectiveDate env raw)], []⟩ ∧
    (processJournal d env store).outcome = Except.ok () ∧
    (processJournal d env store).netCalls = 1 + env.scrapeExtraCalls := by
  refine ⟨?_, ?_, ?_, ?_⟩ <;> simp [processJournal, hs, hdup]

/-- The scraped record of an already-persisted Science issue. -/
def dupRaw : CoverArticleRaw := { journal := "Science", date := "2025-06-20" }

/-- Environment in which the scrape returns `dupRaw`. -/
def dupEnv : SourceEnv := { journal := "Science", scrape := ScrapeOutcome.returns dupRaw }

/-- A persisted store already holding `dupRaw`'s identity. -/
def dupStore : List String := ["data/articles/2025/06/science-2025-06-20.json"]

/-- C3 counterexample: at a concrete already-persisted identity the source
IS reported under "skipped" with no write, but the claim's "zero network
calls for that source" is false — the scrape that computed the identity
already made one call. -/
theorem c3_dedup_network_counterexample :
    (processJournal false dupEnv dupStore).delta.skipped = ["science-2025-06-20"] ∧
    (processJournal false dupEnv dupStore).store = dupStore ∧
    (processJournal false dupEnv dupStore).netCalls = 1 ∧
    ¬ (processJournal false dupEnv dupStore).netCalls = 0 := by
  refine ⟨by decide, by decide, by decide, by decide⟩

/-- C3 witness: the amended statement at the concrete duplicate input. -/
theorem c3_dedup_skip_amended_witness :
    dupEnv.scrape = ScrapeOutcome.returns dupRaw ∧
    entryPath (generate_article_id dupRaw.journal (effectiveDate dupEnv dupRaw))
      (effectiveDate dupEnv dupRaw) ∈ dupStore ∧
    (processJournal false dupEnv dupStore).netCalls = 1 + dupEnv.scrapeExtraCalls :=
  ⟨rfl, by decide,
    (c3_dedup_skip_amended false dupEnv dupStore dupRaw rfl (by decide)).2.2.2⟩

/-- Each source contributes exactly one report entry per run: to
`processed`, to `skipped`, or to `errors` (its own error entry or the one
the `run()` boundary appends when it raised). -/
lemma stepReport_total (d : Bool) (e : SourceEnv) (st : List String) :
    (stepReport d e st).processed.length + (stepReport d e st).skipped.length +
      (stepReport d e st).errors.length = 1 := by
  cases hs : e.scrape with
  | raisesExc m => simp [stepReport, processJournal, hs, Report.append, emptyReport]
  | returnsNone => simp [stepReport, processJournal, hs]
  | returns raw =>
    have hty : summarizeCallRaisesTypeError = true := rfl
    by_cases hdup : entryPath (generate_article_id raw.journal (effectiveDate e raw))
        (effectiveDate e raw) ∈ st
    · simp [stepReport, processJournal, hs, hdup]
    · cases d with
      | false =>
        simp [stepReport, processJournal, hs, hdup, hty, Report.append, emptyReport]
      | true =>
        by_cases hw : e.writeOk = true
        · simp [stepReport, processJournal, hs, hdup, hty, hw]
        · simp [stepReport, processJournal, hs, hdup, hty, hw, Report.append, emptyReport]

/-- A source that contributed neither a processed nor a skipped entry
contributed exactly one error entry, named by its journal. -/
lemma stepReport_all_error (d : Bool) (e : SourceEnv) (st : List String)
    (hp : (stepReport d e st).processed = []) (hsk : (stepReport d e st).skipped = []) :
    (stepReport d e st).errors.map Prod.fst = [e.journal] := by
  cases hs : e.scrape with
  | raisesExc m => simp [stepReport, processJournal, hs, Report.append, emptyReport]
  | returnsNone => simp [stepReport, processJournal, hs]
  | returns raw =>
    have hty : summarizeCallRaisesTypeError = true := rfl
    by_cases hdup : entryPath (generate_article_id raw.journal (effectiveDate e raw))
        (effectiveDate e raw) ∈ st
    · rw [stepReport] at hsk
      simp [processJournal, hs, hdup] at hsk
    · cases d with
      | false =>
        simp [stepReport, processJournal, hs, hdup, hty, Report.append, emptyReport]
      | true =>
        by_cases hw : e.writeOk = true
        · rw [stepReport] at hp
          simp [processJournal, hs, hdup, hty, hw] at hp
        · simp [stepReport, processJournal, hs, hdup, hty, hw, Report.append, emptyReport]

/-- If a whole run produced no processed and no skipped entries, then every
source errored: the error list has exactly one entry per source, in order,
named by the sources' journals. -/
lemma runEnvs_errors_journals (d : Bool) :
    ∀ (envs : List SourceEnv) (store : List String),
      (runEnvs d envs store).2.processed = [] →
      (runEnvs d envs store).2.skipped = [] →
      (runEnvs d envs store).2.errors.map Prod.fst = envs.map SourceEnv.journal := by
  intro envs
  induction envs with
  | nil => intro store _ _; simp [runEnvs, emptyReport]
  | cons e rest ih =>
    intro store hp hsk
    simp only [runEnvs, Report.append] at hp hsk ⊢
    rcases List.append_eq_nil.mp hp with ⟨hp1, hp2⟩
    rcases List.append_eq_nil.mp hsk with ⟨hsk1, hsk2⟩
    rw [List.map_append, stepReport_all_error d e store hp1 hsk1,
      ih (processJournal d e store).store hp2 hsk2, List.map_cons]
    rfl

/-- C9: the CLI exit code is 0 exactly when something was processed or
skipped; it is 1 only when neither list has an entry, in which case every
source errored — the error list carries exactly one entry per source,
named by its journal. -/
theorem c9_exit_code_policy (d : Bool) (envs : List SourceEnv) (store0 : List String) :
    (mainExitCode d envs store0 = 0 ↔
      ((runPipeline d envs store0).report.processed ≠ [] ∨
        (runPipeline d envs store0).report.skipped ≠ [])) ∧
    (mainExitCode d envs store0 = 1 →
      (runPipeline d envs store0).report.processed = [] ∧
      (runPipeline d envs store0).report.skipped = [] ∧
      (runPipeline d envs store0).report.errors.map Prod.fst =
        envs.map SourceEnv.journal) := by
  have hrep : (runPipeline d envs store0).report = (runEnvs d envs store0).2 := rfl
  by_cases hcond : ((runPipeline d envs store0).report.processed ≠ [] ∨
      (runPipeline d envs store0).report.skipped ≠ [])
  · have h0 : mainExitCode d envs store0 = 0 := by
      unfold mainExitCode
      rw [if_pos hcond]
    refine ⟨⟨fun _ => hcond, fun _ => h0⟩, fun h1 => ?_⟩
    rw [h0] at h1
    cases h1
  · have h1 : mainExitCode d envs store0 = 1 := by
      unfold mainExitCode
      rw [if_neg hcond]
    push_neg at hcond
    refine ⟨⟨fun h0 => absurd (h1 ▸ h0) (by decide), fun hc => absurd hc ?_⟩, fun _ => ?_⟩
    · push_neg
      exact hcond
    · refine ⟨hcond.1, hcond.2, ?_⟩
      rw [hrep] at hcond ⊢
      exact runEnvs_errors_journals d envs store0 hcond.1 hcond.2

/-- A source whose scraper finds nothing, for the C9 witness. -/
def emptyScrapeEnv : SourceEnv :=
  { journal := "Cell", scrape := ScrapeOutcome.returnsNone }

/-- C9 witness: a run whose only source errors exits with code 1, and the
error list names exactly that source. -/
theorem c9_exit_code_policy_witness :
    mainExitCode false [emptyScrapeEnv] [] = 1 ∧
    (runPipeline false [emptyScrapeEnv] []).report.errors.map Prod.fst = ["Cell"] :=
  ⟨by decide,
    ((c9_exit_code_policy false [emptyScrapeEnv] []).2 (by decide)).2.2⟩

end SciCover
